import Mathlib

/-!
Shallow embedding of `src/queryinterface.js` (the mock `QueryInterface`
result queue of sequelize-mock): queued outcomes, enqueue operations,
cascading clear, and the consume operation `$query` with shape
negotiation, parent delegation, fallback and the two synchronous errors.
JS objects are modelled by explicit state passing: every mutating method
returns the updated queue.
-/

namespace SequelizeMock

/-- A JavaScript value as far as this component observes it: the only
property of a payload the code ever inspects is `value instanceof Error`
(line 78), so values are split into plain (non-error) values, externally
supplied error-typed values, and `BaseError` wrappers.
`Val.baseError v` stands for `new Errors.BaseError(v)`; `errors.js` is not
part of the analysed sources, so the wrapper is modelled from the spec: a
generic base-error wrapper around the payload, itself error-typed. -/
inductive Val : Type where
  | plain : Nat → Val
  | errVal : Nat → Val
  | baseError : Val → Val
deriving DecidableEq, Repr

/-- Embeds `v instanceof Error`. Plain values are not error-typed;
externally supplied error values and `BaseError` wrappers are. -/
def Val.isError : Val → Bool
  | .plain _ => false
  | .errVal _ => true
  | .baseError _ => true

/-- The option bag attached to a queued entry (`options || {}` at lines
57, 85): `wasCreated`, `affectedRows` (`none` models a value that is not
an `Array`, line 154) and `convertNonErrors`. An absent JS property is
`none`. -/
structure EntryMeta where
  wasCreated : Option Bool := none
  affectedRows : Option (List Val) := none
  convertNonErrors : Option Bool := none
deriving DecidableEq, Repr

/-- One element of `this._results`. The public enqueue API only ever
pushes objects with `type` `"Success"` or `"Failure"`, but `$query`
defensively validates the shape (line 133), so the embedding also admits
an object with an arbitrary `type` string and a non-object element. -/
inductive Entry : Type where
  | obj : String → Val → EntryMeta → Entry
  | nonObj : Nat → Entry
deriving DecidableEq, Repr

/-- The shape validation of line 133: the entry is an object and its
type tag is "Failure" or "Success". -/
def Entry.validShape : Entry → Bool
  | .obj ty _ _ => ty == "Failure" || ty == "Success"
  | .nonObj _ => false

/-- The `QueryInterface` object: constructor options (`parent`,
`stopPropagation`, `createdDefault`, `fallbackFn`, lines 33-41) plus the
`_results` queue. The parent chain is finite, so the reference to the
parent is the state of the parent itself; a `fallbackFn` is identified by an
opaque tag. `createdDefault = none` models the property being
`undefined` (line 143). -/
inductive QI : Type where
  | mk : Option QI → Bool → Option Bool → Option Nat → List Entry → QI

/-- Accessor for `this.options.parent`. -/
def QI.parentRef : QI → Option QI
  | .mk p _ _ _ _ => p

/-- Accessor for `this.options.stopPropagation`. -/
def QI.stopPropagation : QI → Bool
  | .mk _ s _ _ _ => s

/-- Accessor for `this.options.createdDefault` (`none` when undefined). -/
def QI.createdDefault : QI → Option Bool
  | .mk _ _ c _ _ => c

/-- Accessor for `this.options.fallbackFn` (`none` when undefined). -/
def QI.fallbackFn : QI → Option Nat
  | .mk _ _ _ f _ => f

/-- Accessor for `this._results`. -/
def QI.results : QI → List Entry
  | .mk _ _ _ _ r => r

/-- Embeds `$queueResult(result, options)` (lines 54-62): push an entry
holding the content, the option bag (or the empty one) and the Success
tag, and return `this`. -/
def QI.queueResult : QI → Val → Option EntryMeta → QI
  | .mk p s c f r, result, options =>
    .mk p s c f (r ++ [Entry.obj "Success" result (options.getD {})])

/-- Embeds `$queueFailure(error, options)` (alias `$queueError`, lines
76-90): when no option bag was passed or `convertNonErrors` is not
strictly `false`, and the payload is not already an `Error`, wrap it in
`Errors.BaseError`; then push an entry with the Failure tag and return
`this`. -/
def QI.queueFailure : QI → Val → Option EntryMeta → QI
  | .mk p s c f r, error, options =>
    let error :=
      if (options.isNone || (options.getD {}).convertNonErrors != some false)
          && !error.isError then
        Val.baseError error
      else error
    .mk p s c f (r ++ [Entry.obj "Failure" error (options.getD {})])

/-- Alias of [[QI.queueFailure]] kept for the source name `$queueError`
(line 76). -/
def QI.queueError : QI → Val → Option EntryMeta → QI :=
  QI.queueFailure

/-- Options of `$clearQueue` (line 100); `options = options || {}` makes
an omitted argument the empty bag, so the embedding takes the bag
directly. `propagateClear` is false when absent. -/
structure ClearOptions where
  propagateClear : Bool := false
deriving DecidableEq, Repr

/-- Embeds `$clearQueue(options)` (lines 100-111): empty `this._results`;
if `options.propagateClear` and a parent exists, recursively clear the
parent with the same options; return `this`. -/
def QI.clearQueue : QI → ClearOptions → QI
  | .mk p s c f _, options =>
    match p, options.propagateClear with
    | some parent, true => .mk (some (parent.clearQueue options)) s c f []
    | _, _ => .mk p s c f []

/-- Options of `$query` (lines 118-126); `options = options || {}`
makes an omitted argument the empty bag. Boolean flags are false when
absent; `fallbackFn` is `none` when absent. -/
structure QueryOptions where
  fallbackFn : Option Nat := none
  includeCreated : Bool := false
  includeAffectedRows : Bool := false
  stopPropagation : Bool := false
deriving DecidableEq, Repr

/-- What one `$query` call produces. The promise channels
(`bluebird.resolve` of a bare value, of a `[content, created]` pair, of a
`[content, affectedRows]` pair, `bluebird.reject`) are kept distinct from
the two synchronously thrown errors and from an opaque fallback result
(`fallbackFn()` is returned as-is, line 165). -/
inductive QueryResult : Type where
  | resolved : Val → QueryResult
  | resolvedPair : Val → Bool → QueryResult
  | resolvedRows : Val → List Val → QueryResult
  | rejected : Val → QueryResult
  | fallbackResult : Nat → QueryResult
  | thrownInvalidQueryResult : QueryResult
  | thrownEmptyQueryQueue : QueryResult
deriving DecidableEq, Repr

/-- Embeds `$query(options)` (lines 125-169). Returns the produced
result together with the state of the queue (and, through it, of every
ancestor) after the call. -/
def QI.query : QI → QueryOptions → QueryResult × QI
  | .mk p s c f r, options =>
    let fallbackFn := options.fallbackFn <|> f
    match r with
    | result :: rest =>
      let q := QI.mk p s c f rest
      if !result.validShape then
        (.thrownInvalidQueryResult, q)
      else
        match result with
        | .nonObj _ => (.thrownInvalidQueryResult, q)
        | .obj ty content meta =>
          if ty == "Failure" then
            (.rejected content, q)
          else if options.includeCreated then
            let created :=
              match meta.wasCreated with
              | some w => w
              | none => match c with
                        | some d => d
                        | none => true
            (.resolvedPair content created, q)
          else if options.includeAffectedRows then
            (.resolvedRows content (meta.affectedRows.getD []), q)
          else
            (.resolved content, q)
    | [] =>
      match p, (!options.stopPropagation && !s : Bool) with
      | some parent, true =>
        let delegated := parent.query options
        (delegated.1, .mk (some delegated.2) s c f [])
      | _, _ =>
        match fallbackFn with
        | some fn => (.fallbackResult fn, .mk p s c f [])
        | none => (.thrownEmptyQueryQueue, .mk p s c f [])

/-- The wrapping condition of `$queueFailure` (line 78), extracted for
the statements below: wrap exactly when `convertNonErrors` is not
explicitly `false` (or no option bag was passed) and the payload is not
already error-typed. -/
def shouldWrap (error : Val) (options : Option EntryMeta) : Bool :=
  (options.isNone || (options.getD {}).convertNonErrors != some false)
    && !error.isError

/-- One call of the public enqueue API: `$queueResult` or
`$queueFailure`, with its payload and optional option bag. -/
inductive EnqueueCall : Type where
  | success : Val → Option EntryMeta → EnqueueCall
  | failure : Val → Option EntryMeta → EnqueueCall
deriving DecidableEq, Repr

/-- Perform one enqueue call on a queue. -/
def QI.enqueue (q : QI) : EnqueueCall → QI
  | .success content meta => q.queueResult content meta
  | .failure content meta => q.queueFailure content meta

/-- Perform a sequence of enqueue calls, oldest first. -/
def QI.enqueueAll : QI → List EnqueueCall → QI
  | q, [] => q
  | q, call :: calls => (q.enqueue call).enqueueAll calls

/-- The `_results` entry an enqueue call pushes. -/
def EnqueueCall.storedEntry : EnqueueCall → Entry
  | .success content meta => .obj "Success" content (meta.getD {})
  | .failure content meta =>
      .obj "Failure"
        (if shouldWrap content meta then .baseError content else content)
        (meta.getD {})

/-- How a bare `$query()` settles for a given enqueue call: a success
resolves with its payload; a failure rejects with the stored content,
i.e. the payload or its `BaseError` wrapper according to the
normalization policy. -/
def EnqueueCall.settlement : EnqueueCall → QueryResult
  | .success content _ => .resolved content
  | .failure content meta =>
      .rejected
        (if shouldWrap content meta then .baseError content else content)

/-- Runs `n` consecutive bare `$query()` calls: the list of produced results
in call order, and the final queue state. -/
def QI.queryRun : QI → Nat → List QueryResult × QI
  | q, 0 => ([], q)
  | q, n + 1 =>
    let step := q.query {}
    let rest := step.2.queryRun n
    (step.1 :: rest.1, rest.2)

/-- The chain of `_results` queues reachable through parent references is
empty everywhere: locally and in every ancestor. -/
def QI.pendingAllEmpty : QI → Bool
  | .mk p _ _ _ r =>
    r.isEmpty &&
      (match p with
       | none => true
       | some parent => parent.pendingAllEmpty)

/-! ## Helper lemmas -/

/-- Wrapping never yields the payload back: a `BaseError` wrapper is a
strictly larger value than what it wraps. -/
theorem Val.baseError_ne (v : Val) : Val.baseError v ≠ v := by
  induction v with
  | plain n => simp
  | errVal n => simp
  | baseError w ih => intro h; exact ih (Val.baseError.inj h)

/-- One enqueue call appends exactly its stored entry to `_results`. -/
theorem enqueue_results (p : Option QI) (s : Bool) (c : Option Bool)
    (f : Option Nat) (r : List Entry) (call : EnqueueCall) :
    (QI.mk p s c f r).enqueue call = QI.mk p s c f (r ++ [call.storedEntry]) := by
  cases call with
  | success content meta => rfl
  | failure content meta => rfl

/-- A sequence of enqueue calls appends exactly its stored entries. -/
theorem enqueueAll_results (p : Option QI) (s : Bool) (c : Option Bool)
    (f : Option Nat) :
    ∀ (calls : List EnqueueCall) (r : List Entry),
      (QI.mk p s c f r).enqueueAll calls
        = QI.mk p s c f (r ++ calls.map EnqueueCall.storedEntry)
  | [], r => by simp [QI.enqueueAll]
  | call :: calls, r => by
      rw [QI.enqueueAll, enqueue_results, enqueueAll_results p s c f calls]
      simp

/-- A bare `$query()` on a queue whose head entry came from the public
enqueue API produces exactly the settlement of that enqueue call and
removes the head. -/
theorem query_storedEntry_head (p : Option QI) (s : Bool) (c : Option Bool)
    (f : Option Nat) (call : EnqueueCall) (rest : List Entry) :
    (QI.mk p s c f (call.storedEntry :: rest)).query {}
      = (call.settlement, QI.mk p s c f rest) := by
  cases call with
  | success content meta => rfl
  | failure content meta => rfl

/-- Iterating a bare `$query()` over stored enqueue entries yields the
settlements in order and drains the queue. -/
theorem queryRun_storedEntries (p : Option QI) (s : Bool) (c : Option Bool)
    (f : Option Nat) :
    ∀ calls : List EnqueueCall,
      (QI.mk p s c f (calls.map EnqueueCall.storedEntry)).queryRun calls.length
        = (calls.map EnqueueCall.settlement, QI.mk p s c f [])
  | [] => by simp [QI.queryRun]
  | call :: calls => by
      simp only [List.map_cons, List.length_cons, QI.queryRun,
        query_storedEntry_head, queryRun_storedEntries p s c f calls]

/-! ## Claim theorems -/

/-- C1, counterexample to the literal claim: enqueueing the single
failure content `plain 0` and querying once rejects with the `BaseError`
wrapper of that content, not with the content itself. -/
theorem fifo_literal_counterexample :
    (((QI.mk none false none none []).queueFailure (.plain 0) none).query {}).1
        = .rejected (.baseError (.plain 0)) ∧
      (((QI.mk none false none none []).queueFailure (.plain 0) none).query {}).1
        ≠ .rejected (.plain 0) := by
  constructor
  · rfl
  · decide

/-- C1 (amended): for every sequence of enqueue calls (`$queueResult` and
`$queueFailure` in any mix) applied to a queue with empty pending, that
many consecutive bare `$query()` calls settle in exactly the enqueue
order — each success resolves with its content, each failure rejects with
its stored content (the payload, or its `BaseError` wrapper when the
enqueue normalization applied) — and afterwards pending is empty again. -/
theorem fifo_stored_contents (p : Option QI) (s : Bool) (c : Option Bool)
    (f : Option Nat) (calls : List EnqueueCall) :
    ((QI.mk p s c f []).enqueueAll calls).queryRun calls.length
      = (calls.map EnqueueCall.settlement, QI.mk p s c f []) := by
  rw [enqueueAll_results]
  simpa using queryRun_storedEntries p s c f calls

/-- C2: `$queueFailure` stores (and a later query rejects with) the
`BaseError` wrapper of the payload exactly when no option bag was given
or its `convertNonErrors` is not explicitly `false`, and the payload is
not already error-typed; otherwise the payload is stored unchanged.
The wrapper is never equal to the payload, so the two cases are
disjoint. -/
theorem queueFailure_normalization (q : QI) (e : Val) (o : Option EntryMeta) :
    (q.queueFailure e o).results
        = q.results
          ++ [Entry.obj "Failure"
                (if shouldWrap e o then .baseError e else e) (o.getD {})] ∧
    (shouldWrap e o = true
        ↔ (o = none ∨ (o.getD {}).convertNonErrors ≠ some false)
            ∧ e.isError = false) ∧
    Val.baseError e ≠ e := by
  refine ⟨?_, ?_, Val.baseError_ne e⟩
  · cases q; rfl
  · cases o with
    | none => simp [shouldWrap]
    | some m => simp [shouldWrap, bne_iff_ne]

/-- C3, counterexample: `$queueFailure` of the non-error payload
`plain 0` with `convertNonErrors` explicitly `false` stores and rejects
with the payload unchanged — the flag disables wrapping even for
non-error payloads, contrary to the claim. -/
theorem flag_false_unwrapped_counterexample :
    (((QI.mk none false none none []).queueFailure (.plain 0)
          (some { convertNonErrors := some false })).query {}).1
        = .rejected (.plain 0) ∧
      (((QI.mk none false none none []).queueFailure (.plain 0)
          (some { convertNonErrors := some false })).query {}).1
        ≠ .rejected (.baseError (.plain 0)) := by
  constructor
  · rfl
  · decide

/-- C3 (amended): passing `convertNonErrors` explicitly `false` disables
the `BaseError` wrapping for every payload, error-typed or not: the
payload is stored unchanged. -/
theorem queueFailure_flag_false_stores_unchanged (q : QI) (e : Val)
    (m : EntryMeta) (hm : m.convertNonErrors = some false) :
    (q.queueFailure e (some m)).results
      = q.results ++ [Entry.obj "Failure" e m] := by
  cases q
  simp [QI.queueFailure, QI.results, hm]

/-- C3 witness: the amended statement at the concrete non-error payload
`plain 0`. -/
theorem queueFailure_flag_false_stores_unchanged_witness :
    ((QI.mk none false none none []).queueFailure (.plain 0)
        (some { convertNonErrors := some false })).results
      = [Entry.obj "Failure" (.plain 0) { convertNonErrors := some false }] := by
  have h := queueFailure_flag_false_stores_unchanged
    (QI.mk none false none none []) (.plain 0)
    { convertNonErrors := some false } rfl
  simpa using h

/-- C4: with `includeCreated` requested, a Success head entry resolves to
the pair of its content and the created flag, which is the entry
`wasCreated` option when explicitly set, else the configured
`createdDefault` when explicitly set, else `true`. -/
theorem query_includeCreated_precedence (p : Option QI) (s : Bool)
    (c : Option Bool) (f : Option Nat) (content : Val) (meta : EntryMeta)
    (rest : List Entry) (opts : QueryOptions)
    (h : opts.includeCreated = true) :
    (QI.mk p s c f (Entry.obj "Success" content meta :: rest)).query opts
      = (.resolvedPair content (meta.wasCreated.getD (c.getD true)),
         QI.mk p s c f rest) := by
  cases meta with
  | mk w a cv =>
      cases w <;> cases c <;>
        simp [QI.query, Entry.validShape, h, Option.getD]

/-- C4 witness: queuing a success with `wasCreated` explicitly `false`
and no configured `createdDefault`, then querying with `includeCreated`,
yields the pair with flag `false`. -/
theorem query_includeCreated_precedence_witness :
    (QI.mk none false none none
        [Entry.obj "Success" (.plain 7) { wasCreated := some false }]).query
        { includeCreated := true }
      = (.resolvedPair (.plain 7) false, QI.mk none false none none []) := by
  have h := query_includeCreated_precedence none false none none (.plain 7)
    { wasCreated := some false } [] { includeCreated := true } rfl
  simpa using h

/-- Dequeue effect: whenever `_results` is non-empty, `$query` removes
exactly the head entry, whatever branch it then takes. -/
theorem query_state_after_dequeue (p : Option QI) (s : Bool)
    (c : Option Bool) (f : Option Nat) (e : Entry) (rest : List Entry)
    (opts : QueryOptions) :
    ((QI.mk p s c f (e :: rest)).query opts).2 = QI.mk p s c f rest := by
  cases e with
  | nonObj n => rfl
  | obj ty content meta =>
      simp only [QI.query]
      repeat' split
      all_goals rfl

/-- C5: when the pending sequence of a queue is empty, its configured
`stopPropagation` is false, the call does not set `stopPropagation`, and
a parent exists, the query is forwarded to the parent: the produced
result is exactly the result the parent produces for the same options,
the local pending stays empty while the parent reference is updated to
the state of the parent after its own query, and when the parent had a
non-empty pending the pending of the parent shrinks by one. -/
theorem query_delegates_to_parent (B : QI) (c : Option Bool)
    (f : Option Nat) (opts : QueryOptions)
    (h : opts.stopPropagation = false) :
    ((QI.mk (some B) false c f []).query opts).1 = (B.query opts).1 ∧
    ((QI.mk (some B) false c f []).query opts).2
      = QI.mk (some ((B.query opts).2)) false c f [] ∧
    (B.results ≠ [] →
      ((B.query opts).2).results.length + 1 = B.results.length) := by
  refine ⟨?_, ?_, ?_⟩
  · simp [QI.query, h]
  · simp [QI.query, h]
  · intro hne
    cases B with
    | mk pB sB cB fB rB =>
        cases rB with
        | nil => exact absurd rfl hne
        | cons e rest =>
            rw [query_state_after_dequeue]
            simp [QI.results]

/-- C5 witness: parent with one queued success `plain 5`; the child with
empty pending delegates, produces the same resolution, keeps its own
pending empty, and the parent pending shrinks from one to zero. -/
theorem query_delegates_to_parent_witness :
    (((QI.mk (some ((QI.mk none false none none []).queueResult (.plain 5) none))
          false none none []).query {}).1
        = (((QI.mk none false none none []).queueResult (.plain 5) none).query {}).1)
      ∧ (((QI.mk (some ((QI.mk none false none none []).queueResult (.plain 5) none))
          false none none []).query {}).2
        = QI.mk
            (some ((((QI.mk none false none none []).queueResult (.plain 5) none).query {}).2))
            false none none [])
      ∧ ((((QI.mk none false none none []).queueResult (.plain 5) none).query {}).2).results.length + 1
        = ((QI.mk none false none none []).queueResult (.plain 5) none).results.length := by
  have h := query_delegates_to_parent
    ((QI.mk none false none none []).queueResult (.plain 5) none) none none {} rfl
  exact ⟨h.1, h.2.1, h.2.2 (by decide)⟩

/-- C6: with empty pending, no configured fallback, no call-local
fallback, and delegation not applying (the call sets `stopPropagation`,
or the queue configures it, or there is no parent), `$query` throws
`EmptyQueryQueue` synchronously — in particular it never settles the
asynchronous channel — and leaves the queue unchanged. -/
theorem query_exhausted_raises_empty (p : Option QI) (s : Bool)
    (c : Option Bool) (opts : QueryOptions) (hf : opts.fallbackFn = none)
    (hd : opts.stopPropagation = true ∨ s = true ∨ p = none) :
    (QI.mk p s c none []).query opts
      = (.thrownEmptyQueryQueue, QI.mk p s c none []) := by
  rcases hd with h | h | h
  · cases p <;> simp [QI.query, hf, h]
  · cases p <;> simp [QI.query, hf, h]
  · simp [QI.query, hf, h]

/-- C6 witness: with a populated parent present, a query that sets
`stopPropagation` raises `EmptyQueryQueue` instead of delegating. -/
theorem query_exhausted_raises_empty_witness :
    (QI.mk (some ((QI.mk none false none none []).queueResult (.plain 5) none))
        false none none []).query { stopPropagation := true }
      = (.thrownEmptyQueryQueue,
         QI.mk (some ((QI.mk none false none none []).queueResult (.plain 5) none))
           false none none []) :=
  query_exhausted_raises_empty
    (some ((QI.mk none false none none []).queueResult (.plain 5) none))
    false none { stopPropagation := true } rfl (Or.inl rfl)

/-- C7: a dequeued Failure entry always rejects with exactly its stored
content, for every combination of query options — `includeCreated` and
`includeAffectedRows` have no effect on a failure — and only the head
entry is consumed. -/
theorem query_failure_rejects_content (p : Option QI) (s : Bool)
    (c : Option Bool) (f : Option Nat) (content : Val) (meta : EntryMeta)
    (rest : List Entry) (opts : QueryOptions) :
    (QI.mk p s c f (Entry.obj "Failure" content meta :: rest)).query opts
      = (.rejected content, QI.mk p s c f rest) := by
  rfl

/-- Cascade effect of `$clearQueue` with `propagateClear`: every queue in
the parent chain ends with empty pending. -/
theorem clearQueue_pendingAllEmpty :
    ∀ (q : QI) (opts : ClearOptions), opts.propagateClear = true →
      (q.clearQueue opts).pendingAllEmpty = true
  | .mk none s c f r, opts, h => by
      simp [QI.clearQueue, QI.pendingAllEmpty]
  | .mk (some parent) s c f r, opts, h => by
      simp [QI.clearQueue, QI.pendingAllEmpty, h,
        clearQueue_pendingAllEmpty parent opts h]

/-- C8: `$clearQueue` empties the local pending unconditionally; with
`propagateClear` it recursively clears the parent with the same options,
so every pending along the whole parent chain ends empty; without
`propagateClear` the parent reference — hence the parent state — is left
untouched. -/
theorem clearQueue_spec (q : QI) (opts : ClearOptions) :
    (q.clearQueue opts).results = [] ∧
    (opts.propagateClear = true →
      (q.clearQueue opts).parentRef
          = q.parentRef.map (fun parent => parent.clearQueue opts) ∧
        (q.clearQueue opts).pendingAllEmpty = true) ∧
    (opts.propagateClear = false →
      (q.clearQueue opts).parentRef = q.parentRef) := by
  refine ⟨?_, fun h => ⟨?_, clearQueue_pendingAllEmpty q opts h⟩, fun h => ?_⟩
  · cases q with
    | mk p s c f r =>
        cases p <;> cases hp : opts.propagateClear <;>
          simp [QI.clearQueue, QI.results, hp]
  · cases q with
    | mk p s c f r =>
        cases p <;> simp [QI.clearQueue, QI.parentRef, h]
  · cases q with
    | mk p s c f r =>
        cases p <;> simp [QI.clearQueue, QI.parentRef, h]

/-- C8 witness: a child with a populated parent, cleared with
`propagateClear`: the child pending empties and the whole chain is
empty afterwards. -/
theorem clearQueue_spec_witness :
    ((QI.mk (some ((QI.mk none false none none []).queueResult (.plain 2) none))
        false none none [Entry.obj "Success" (.plain 1) {}]).clearQueue
        { propagateClear := true }).results = [] ∧
    ((QI.mk (some ((QI.mk none false none none []).queueResult (.plain 2) none))
        false none none [Entry.obj "Success" (.plain 1) {}]).clearQueue
        { propagateClear := true }).pendingAllEmpty = true := by
  have h := clearQueue_spec
    (QI.mk (some ((QI.mk none false none none []).queueResult (.plain 2) none))
      false none none [Entry.obj "Success" (.plain 1) {}])
    { propagateClear := true }
  exact ⟨h.1, (h.2.1 rfl).2⟩

/-- C9: a malformed head entry (not an object, or tagged neither Success
nor Failure) is removed from pending before validation, so the
synchronous `InvalidQueryResult` throw leaves the queue one entry
shorter, with the remaining entries intact for subsequent queries. -/
theorem query_malformed_head_consumed (p : Option QI) (s : Bool)
    (c : Option Bool) (f : Option Nat) (e : Entry) (rest : List Entry)
    (opts : QueryOptions) (h : e.validShape = false) :
    (QI.mk p s c f (e :: rest)).query opts
      = (.thrownInvalidQueryResult, QI.mk p s c f rest) := by
  cases e with
  | nonObj n => rfl
  | obj ty content meta => simp [QI.query, h]

/-- C9 witness: a non-object head followed by a well-formed success: the
first query throws `InvalidQueryResult` yet consumes the corrupt entry,
leaving only the success entry. -/
theorem query_malformed_head_consumed_witness :
    (QI.mk none false none none
        [Entry.nonObj 0, Entry.obj "Success" (.plain 1) {}]).query {}
      = (.thrownInvalidQueryResult,
         QI.mk none false none none [Entry.obj "Success" (.plain 1) {}]) :=
  query_malformed_head_consumed none false none none (Entry.nonObj 0)
    [Entry.obj "Success" (.plain 1) {}] {} rfl

/-- C10: delegation forwards only the options object, so a configured
child fallback is out of reach: a queue with empty pending and a
configured `fallbackFn` that delegates to an exhausted parent with no
parent and no fallback of its own gets `EmptyQueryQueue` thrown, its own
configured fallback never consulted — even though that fallback is
configured on the child. -/
theorem configured_fallback_not_forwarded (sB : Bool) (cB c : Option Bool)
    (f : Nat) :
    (QI.mk (some (QI.mk none sB cB none [])) false c (some f) []).query {}
        = (.thrownEmptyQueryQueue,
           QI.mk (some (QI.mk none sB cB none [])) false c (some f) []) ∧
      (QI.mk (some (QI.mk none sB cB none [])) false c (some f) []).fallbackFn
        = some f := by
  constructor
  · rfl
  · rfl

end SequelizeMock
